import Mathlib

/-!
Verification of the feed-forward neural-network trainer in
`src/utils/neural_network.py` (class `NeuralNetwork` and its helpers).

The Python code works on NumPy arrays of floats; we model the numeric
values as real numbers and 2-D arrays as row-major lists of rows
(`Mat := List (List ℝ)`).  Fallible operations (Python `raise` /
`assert` / NumPy shape errors) are modelled with `Except String`.
The optimizer classes live in `src/utils/optimizer.py`, which is not
part of the sources we were given; they are modelled from the spec
(section 4.4), as marked on each such definition.
-/

noncomputable section

namespace NN

/-- A 2-D array, row major, as produced by NumPy in this code base. -/
abbrev Mat := List (List ℝ)

/-- Entry `M[i][j]`, defaulting to `0` outside the array (the defaults are
never exercised by well-shaped inputs, which is all the Python code accepts). -/
def entry (M : Mat) (i j : ℕ) : ℝ := (M.getD i []).getD j 0

/-- Number of rows of a matrix. -/
def rowsOf (M : Mat) : ℕ := M.length

/-- Number of columns of a matrix (`shape[1]` of a well-formed array). -/
def colsOf (M : Mat) : ℕ := (M.headD []).length

/-- Build an `m × n` matrix from an entry function. -/
def mkMat (m n : ℕ) (f : ℕ → ℕ → ℝ) : Mat :=
  (List.range m).map (fun i => (List.range n).map (f i))

/-- Apply `f` to every entry (NumPy elementwise unary op). -/
def mapMat (f : ℝ → ℝ) (M : Mat) : Mat := M.map (fun r => r.map f)

/-- Elementwise binary operation; the shape is taken from the first
argument (the Python code only combines same-shaped arrays here). -/
def matZip (f : ℝ → ℝ → ℝ) (A B : Mat) : Mat :=
  mkMat (rowsOf A) (colsOf A) (fun i j => f (entry A i j) (entry B i j))

/-- `np.dot(H, W.T)` for `H : n×d`, `W : o×d`; result is `n×o`. -/
def dotT (H W : Mat) : Mat :=
  mkMat (rowsOf H) (rowsOf W) (fun n o => ∑ k ∈ Finset.range (colsOf H), entry H n k * entry W o k)

/-- `np.dot(A, B)` for `A : n×s`, `B : s×m`; result is `n×m`. -/
def dot (A B : Mat) : Mat :=
  mkMat (rowsOf A) (colsOf B) (fun i j => ∑ k ∈ Finset.range (colsOf A), entry A i k * entry B k j)

/-- `np.dot(DA.T, H)` for `DA : n×o`, `H : n×d`; result is `o×d`. -/
def dotTH (DA H : Mat) : Mat :=
  mkMat (colsOf DA) (colsOf H) (fun o j => ∑ n ∈ Finset.range (rowsOf DA), entry DA n o * entry H n j)

/-- `np.sum(M, axis=0, keepdims=True)`: a `1 × cols` matrix of column sums. -/
def colSum (M : Mat) : Mat :=
  mkMat 1 (colsOf M) (fun _ j => ∑ i ∈ Finset.range (rowsOf M), entry M i j)

/-- Divide every entry by a (natural) count, as in `... / N`. -/
def matDiv (M : Mat) (N : ℕ) : Mat := mapMat (fun x => x / (N : ℝ)) M

/-- Sum of all entries, `np.sum(M)`. -/
def sumAll (M : Mat) : ℝ := (M.map (fun r => r.sum)).sum

/-- A matrix of zeros with the shape of `M` (`np.zeros_like`). -/
def zerosLike (M : Mat) : Mat := mkMat (rowsOf M) (colsOf M) (fun _ _ => 0)

/-- Row-wise maximum, `np.max(r)` on a single row (rows are nonempty in use). -/
def rowMax : List ℝ → ℝ
  | [] => 0
  | a :: t => t.foldl max a

/-- The epsilon `1e-15` used in the cross-entropy loss and gradient. -/
def npEps : ℝ := 1e-15

/-- Python's `str.lower()` on the ASCII tags this code dispatches on. -/
def pyLower (s : String) : String := ⟨s.data.map Char.toLower⟩

/-- Ternary elementwise zip with the shape of the first argument. -/
def matZip3 (f : ℝ → ℝ → ℝ → ℝ) (A B C : Mat) : Mat :=
  mkMat (rowsOf A) (colsOf A) (fun i j => f (entry A i j) (entry B i j) (entry C i j))

/-- Quaternary elementwise zip with the shape of the first argument. -/
def matZip4 (f : ℝ → ℝ → ℝ → ℝ → ℝ) (A B C D : Mat) : Mat :=
  mkMat (rowsOf A) (colsOf A) (fun i j => f (entry A i j) (entry B i j) (entry C i j) (entry D i j))

/-- Layerwise elementwise zip of two parameter lists. -/
def lZip (f : ℝ → ℝ → ℝ) (P Q : List Mat) : List Mat := List.zipWith (matZip f) P Q

/-- Layerwise ternary zip. -/
def lZip3 (f : ℝ → ℝ → ℝ → ℝ) : List Mat → List Mat → List Mat → List Mat
  | a :: as, b :: bs, c :: cs => matZip3 f a b c :: lZip3 f as bs cs
  | _, _, _ => []

/-- Layerwise quaternary zip. -/
def lZip4 (f : ℝ → ℝ → ℝ → ℝ → ℝ) : List Mat → List Mat → List Mat → List Mat → List Mat
  | a :: as, b :: bs, c :: cs, d :: ds => matZip4 f a b c d :: lZip4 f as bs cs ds
  | _, _, _, _ => []

/-- Modelled from the spec: the optimizer family of `src/utils/optimizer.py`
(not among the given sources).  Per spec sections 3 and 4.4, every variant
holds a learning rate, variant-dependent decay coefficients
(momentum coefficient, RMSProp decay, Adam β1/β2, numerical ε) and up to two
auxiliary accumulator sequences shaped like `(W, B)`, zero-initialized. -/
structure Optimizer where
  name : String
  learning_rate : ℝ
  mu : ℝ
  beta : ℝ
  beta1 : ℝ
  beta2 : ℝ
  eps : ℝ
  aux1W : List Mat
  aux1B : List Mat
  aux2W : List Mat
  aux2B : List Mat

/-- Modelled from the spec: construction of an optimizer instance by
`set_optimizer` (the constructors live in `src/utils/optimizer.py`).
Spec section 4.4: auxiliary state is zero-initialized with the shapes of
`(W, B)`; the decay coefficients take the documented defaults
(μ = 0.9, RMSProp β = 0.9, β1 = 0.9, β2 = 0.999, ε = 1e-8). -/
def mkOptimizer (name : String) (lr : ℝ) (W B : List Mat) : Optimizer :=
  { name := name, learning_rate := lr, mu := 0.9, beta := 0.9,
    beta1 := 0.9, beta2 := 0.999, eps := 1e-8,
    aux1W := W.map zerosLike, aux1B := B.map zerosLike,
    aux2W := W.map zerosLike, aux2B := B.map zerosLike }

/-- Modelled from the spec: the shared update contract of the six optimizer
variants (spec section 4.4), `update(W, B, dW, dB, step) -> (W_new, B_new)`
together with the advanced auxiliary state.  `step` is the 0-indexed global
step counter.  Formulas, per variant, exactly as the spec gives them:
SGD `W -= lr*dW`; Momentum `v = μ*v + dW; W -= lr*v`; Nesterov
`v = μ*v + dW; W -= lr*(dW + μ*v)`; RMSProp `s = β*s + (1-β)*dW²;
W -= lr*dW/(sqrt(s)+ε)`; Adam bias-corrected moments; Nadam = Adam with a
Nesterov-style look-ahead on the momentum term.  An unknown name leaves the
parameters unchanged (unreachable: `set_optimizer` validates the name). -/
def Optimizer.update (o : Optimizer) (W B dW dB : List Mat) (step : ℕ) :
    (List Mat × List Mat) × Optimizer :=
  if o.name = "sgd" then
    ((lZip (fun w d => w - o.learning_rate * d) W dW,
      lZip (fun b d => b - o.learning_rate * d) B dB), o)
  else if o.name = "momentum" then
    let vW := lZip (fun v d => o.mu * v + d) o.aux1W dW
    let vB := lZip (fun v d => o.mu * v + d) o.aux1B dB
    ((lZip (fun w v => w - o.learning_rate * v) W vW,
      lZip (fun b v => b - o.learning_rate * v) B vB),
     { o with aux1W := vW, aux1B := vB })
  else if o.name = "nesterov" then
    let vW := lZip (fun v d => o.mu * v + d) o.aux1W dW
    let vB := lZip (fun v d => o.mu * v + d) o.aux1B dB
    ((lZip3 (fun w d v => w - o.learning_rate * (d + o.mu * v)) W dW vW,
      lZip3 (fun b d v => b - o.learning_rate * (d + o.mu * v)) B dB vB),
     { o with aux1W := vW, aux1B := vB })
  else if o.name = "rmsprop" then
    let sW := lZip (fun s d => o.beta * s + (1 - o.beta) * d ^ 2) o.aux1W dW
    let sB := lZip (fun s d => o.beta * s + (1 - o.beta) * d ^ 2) o.aux1B dB
    ((lZip3 (fun w d s => w - o.learning_rate * d / (Real.sqrt s + o.eps)) W dW sW,
      lZip3 (fun b d s => b - o.learning_rate * d / (Real.sqrt s + o.eps)) B dB sB),
     { o with aux1W := sW, aux1B := sB })
  else if o.name = "adam" then
    let mW := lZip (fun m d => o.beta1 * m + (1 - o.beta1) * d) o.aux1W dW
    let mB := lZip (fun m d => o.beta1 * m + (1 - o.beta1) * d) o.aux1B dB
    let vW := lZip (fun v d => o.beta2 * v + (1 - o.beta2) * d ^ 2) o.aux2W dW
    let vB := lZip (fun v d => o.beta2 * v + (1 - o.beta2) * d ^ 2) o.aux2B dB
    let c1 := 1 - o.beta1 ^ (step + 1)
    let c2 := 1 - o.beta2 ^ (step + 1)
    ((lZip3 (fun w m v => w - o.learning_rate * (m / c1) / (Real.sqrt (v / c2) + o.eps)) W mW vW,
      lZip3 (fun b m v => b - o.learning_rate * (m / c1) / (Real.sqrt (v / c2) + o.eps)) B mB vB),
     { o with aux1W := mW, aux1B := mB, aux2W := vW, aux2B := vB })
  else if o.name = "nadam" then
    let mW := lZip (fun m d => o.beta1 * m + (1 - o.beta1) * d) o.aux1W dW
    let mB := lZip (fun m d => o.beta1 * m + (1 - o.beta1) * d) o.aux1B dB
    let vW := lZip (fun v d => o.beta2 * v + (1 - o.beta2) * d ^ 2) o.aux2W dW
    let vB := lZip (fun v d => o.beta2 * v + (1 - o.beta2) * d ^ 2) o.aux2B dB
    let c1 := 1 - o.beta1 ^ (step + 1)
    let c2 := 1 - o.beta2 ^ (step + 1)
    ((lZip4 (fun w m v d =>
        w - o.learning_rate * (o.beta1 * (m / c1) + (1 - o.beta1) * d / c1) /
          (Real.sqrt (v / c2) + o.eps)) W mW vW dW,
      lZip4 (fun b m v d =>
        b - o.learning_rate * (o.beta1 * (m / c1) + (1 - o.beta1) * d / c1) /
          (Real.sqrt (v / c2) + o.eps)) B mB vB dB),
     { o with aux1W := mW, aux1B := mB, aux2W := vW, aux2B := vB })
  else ((W, B), o)

/-- The network state: the attributes `NeuralNetwork.__init__` stores on
`self` (`layer_sizes`, `L`, `activation_functions`, `W`, `B`,
`weight_decay`, `optimizer`).  `LOG_EACH` only switches console printing
on or off and is omitted. -/
structure NeuralNetwork where
  layer_sizes : List ℕ
  L : ℕ
  activation_functions : List String
  W : List Mat
  B : List Mat
  weight_decay : ℝ
  optimizer : Option Optimizer

/-- `NeuralNetwork.__init__` (lines 10-43).  The random draws of
`np.random.uniform(-0.5, 0.5, ...)` and `np.random.randn(...)` are supplied
as uninterpreted entry generators `randu`/`randn` (layer, row, column).
The length assertion fires first; then the weight-init name is dispatched
case-insensitively, an unknown name raising
`ValueError(f"Unsupported weight initialization: {weight_init}")`. -/
def nn_init (randu randn : ℕ → ℕ → ℕ → ℝ) (layer_sizes : List ℕ)
    (activation_functions : List String) (weight_decay : ℝ) (weight_init : String) :
    Except String NeuralNetwork :=
  if layer_sizes.length ≠ activation_functions.length + 1 then
    .error "AssertionError: Number of layers (excluding input layer) and activations must match"
  else if pyLower weight_init = "random" then
    .ok { layer_sizes := layer_sizes, L := layer_sizes.length - 1,
          activation_functions := activation_functions,
          W := (List.range (layer_sizes.length - 1)).map (fun i =>
                 mkMat (layer_sizes.getD (i + 1) 0) (layer_sizes.getD i 0) (randu i)),
          B := (List.range (layer_sizes.length - 1)).map (fun i =>
                 mkMat 1 (layer_sizes.getD (i + 1) 0) (fun _ _ => 0)),
          weight_decay := weight_decay, optimizer := none }
  else if pyLower weight_init = "xavier" then
    .ok { layer_sizes := layer_sizes, L := layer_sizes.length - 1,
          activation_functions := activation_functions,
          W := (List.range (layer_sizes.length - 1)).map (fun i =>
                 mkMat (layer_sizes.getD (i + 1) 0) (layer_sizes.getD i 0) (fun r c =>
                   randn i r c *
                     Real.sqrt (2 / ((layer_sizes.getD (i + 1) 0 : ℝ) + (layer_sizes.getD i 0 : ℝ))))),
          B := (List.range (layer_sizes.length - 1)).map (fun i =>
                 mkMat 1 (layer_sizes.getD (i + 1) 0) (fun _ _ => 0)),
          weight_decay := weight_decay, optimizer := none }
  else .error ("Unsupported weight initialization: " ++ weight_init)

/-- The keys of `optimizer_map` in `set_optimizer` (lines 52-59). -/
def optimizer_map_names : List String :=
  ["sgd", "momentum", "nesterov", "rmsprop", "adam", "nadam"]

/-- `NeuralNetwork.set_optimizer` (lines 45-66): validates the
case-insensitive optimizer name against `optimizer_map`, raising
`ValueError(f"Unsupported optimizer: {optimizer_dict['name']}")` for an
unknown one, and attaches a freshly constructed optimizer instance. -/
def set_optimizer (net : NeuralNetwork) (name : String) (learning_rate : ℝ) :
    Except String NeuralNetwork :=
  if optimizer_map_names.contains (pyLower name) then
    .ok { net with optimizer := some (mkOptimizer (pyLower name) learning_rate net.W net.B) }
  else .error ("Unsupported optimizer: " ++ name)

/-- `NeuralNetwork.activate` (lines 68-90): case-insensitive dispatch on the
activation name; softmax is row-wise with the row-max subtracted for
stability; an unknown name raises
`ValueError(f"Unsupported activation function: {activation}")`. -/
def activate (A : Mat) (activation : String) : Except String Mat :=
  if pyLower activation = "sigmoid" then
    .ok (mapMat (fun x => 1 / (1 + Real.exp (-x))) A)
  else if pyLower activation = "relu" then
    .ok (mapMat (fun x => max 0 x) A)
  else if pyLower activation = "tanh" then
    .ok (mapMat Real.tanh A)
  else if pyLower activation = "softmax" then
    .ok (A.map (fun r =>
      let m := rowMax r
      let exps := r.map (fun x => Real.exp (x - m))
      exps.map (fun e => e / exps.sum)))
  else if pyLower activation = "identity" then
    .ok A
  else .error ("Unsupported activation function: " ++ activation)

/-- The result of `_activate_derivative`: the Python function returns either
an array or the Python scalar `1` (for identity and softmax), which NumPy
then broadcasts in the elementwise product. -/
inductive Deriv where
  | scalar (c : ℝ)
  | arr (M : Mat)

/-- `dX * deriv` as the Python code multiplies a matrix with the value
returned by `_activate_derivative` (scalar broadcast or elementwise). -/
def applyDeriv (M : Mat) : Deriv → Mat
  | .scalar c => mapMat (fun x => x * c) M
  | .arr D => matZip (fun a b => a * b) M D

/-- `NeuralNetwork._activate_derivative` (lines 92-113): sigmoid `H*(1-H)`,
relu `(A > 0).astype(float)`, tanh `1-H²`, identity and softmax the scalar
`1`; an unknown name raises `ValueError`. -/
def _activate_derivative (A H : Mat) (activation : String) : Except String Deriv :=
  if pyLower activation = "sigmoid" then
    .ok (.arr (mapMat (fun h => h * (1 - h)) H))
  else if pyLower activation = "relu" then
    .ok (.arr (mapMat (fun a => if 0 < a then 1 else 0) A))
  else if pyLower activation = "tanh" then
    .ok (.arr (mapMat (fun h => 1 - h ^ 2) H))
  else if pyLower activation = "identity" then
    .ok (.scalar 1)
  else if pyLower activation = "softmax" then
    .ok (.scalar 1)
  else .error ("Unsupported activation function: " ++ activation)

/-- `NeuralNetwork.one_hot` (lines 224-234): a `y.size × layer_sizes[-1]`
zero matrix with a `1` written at `(i, y[i])`.  A label at or beyond the
output width makes the NumPy fancy assignment raise `IndexError`. -/
def one_hot (net : NeuralNetwork) (y : List ℕ) : Except String Mat :=
  let C := net.layer_sizes.getLastD 0
  if y.all (fun v => v < C) then
    .ok (mkMat y.length C (fun i j => if y.getD i 0 = j then 1 else 0))
  else .error "IndexError: index is out of bounds for axis 1"

/-- Labels as they flow through `compute_loss` / `_loss_derivative`: either a
1-D integer class-index vector (`y.ndim == 1`) or an already one-hot
(2-D) float array. -/
inductive Labels where
  | idx (v : List ℕ)
  | arr (M : Mat)

/-- `NeuralNetwork.compute_loss` (lines 134-157): 1-D labels are one-hot
expanded, `m = y.shape[0]`, then cross-entropy
`-np.sum(y * np.log(H_final + 1e-15)) / m` or mse
`np.sum((H_final - y)**2) / (2*m)`; an unknown loss name raises
`ValueError(f"Unsupported loss function: {loss_type}")`. -/
def compute_loss (net : NeuralNetwork) (H_final : Mat) (y : Labels) (loss_type : String) :
    Except String ℝ := do
  let Y ← match y with
    | .idx v => one_hot net v
    | .arr M => .ok M
  let m := Y.length
  if pyLower loss_type = "cross_entropy" then
    .ok (-(sumAll (matZip (fun a b => a * b) Y
        (mapMat (fun x => Real.log (x + npEps)) H_final))) / (m : ℝ))
  else if pyLower loss_type = "mse" ∨ pyLower loss_type = "mean_squared_error" then
    .ok (sumAll (matZip (fun a b => (a - b) ^ 2) H_final Y) / (2 * (m : ℝ)))
  else .error ("Unsupported loss function: " ++ loss_type)

/-- `NeuralNetwork._loss_derivative` (lines 159-178).  Cross-entropy returns
`-y / (y_pred + 1e-15)` on the labels exactly as given — this branch does
NOT one-hot expand a 1-D integer label vector; NumPy broadcasts the 1-D
vector against the rows of `y_pred` (legal when its length equals the
column count, or either is 1; otherwise a `ValueError`).  The mse branch
one-hot expands 1-D labels and returns `(y_pred - y) / m`. -/
def _loss_derivative (net : NeuralNetwork) (y_pred : Mat) (y : Labels) (loss_type : String) :
    Except String Mat := do
  if pyLower loss_type = "cross_entropy" then
    match y with
    | .arr Y => .ok (matZip (fun a b => -a / (b + npEps)) Y y_pred)
    | .idx v =>
        let R := rowsOf y_pred
        let C := colsOf y_pred
        if v.length = C ∨ v.length = 1 ∨ C = 1 then
          .ok (mkMat R (max v.length C) (fun i j =>
            -((v.getD (if v.length = 1 then 0 else j) 0 : ℕ) : ℝ) /
              (entry y_pred i (if C = 1 then 0 else j) + npEps)))
        else .error "ValueError: operands could not be broadcast together"
  else if pyLower loss_type = "mse" ∨ pyLower loss_type = "mean_squared_error" then
    let Y ← match y with
      | .idx v => one_hot net v
      | .arr M => .ok M
    let m := Y.length
    .ok (matZip (fun a b => (a - b) / (m : ℝ)) y_pred Y)
  else .error ("Unsupported loss function: " ++ loss_type)

/-- `NeuralNetwork.forward_propagation` (lines 116-132): `H = [X]; A = []`,
then for `i` in `range(L)`, `A.append(H[i] · W[i].T + B[i])` (the bias row
broadcast over the batch rows) and `H.append(activate(A[i], af[i]))`. -/
def forward_propagation (net : NeuralNetwork) (X : Mat) :
    Except String (List Mat × List Mat) := do
  let hA ← (List.range net.L).foldlM (fun (hA : List Mat × List Mat) i => do
    let Ai := matZip (fun a b => a + b)
      (dotT (hA.1.getD i []) (net.W.getD i []))
      (mkMat (rowsOf (hA.1.getD i [])) (colsOf (net.B.getD i []))
        (fun _ j => entry (net.B.getD i []) 0 j))
    let Hi ← activate Ai (net.activation_functions.getD i "")
    pure (hA.1 ++ [Hi], hA.2 ++ [Ai])) ([X], [])
  pure hA

/-- The output-layer error `dA` of `back_propagation` (lines 199-204): the
closed-form `H[-1] - one_hot(y)` when the loss is cross-entropy and the
final activation softmax (both case-insensitively), otherwise
`_loss_derivative(H[-1], y, loss_type) * _activate_derivative(A[-1], H[-1], af[-1])`. -/
def outputError (net : NeuralNetwork) (H A : List Mat) (y : List ℕ) (loss_type : String) :
    Except String Mat := do
  if pyLower loss_type = "cross_entropy" ∧
      pyLower (net.activation_functions.getLastD "") = "softmax" then
    let Y ← one_hot net y
    pure (matZip (fun a b => a - b) (H.getLastD []) Y)
  else
    let dH ← _loss_derivative net (H.getLastD []) (.idx y) loss_type
    let d ← _activate_derivative (A.getLastD []) (H.getLastD [])
      (net.activation_functions.getLastD "")
    pure (applyDeriv dH d)

/-- The backward loop of `back_propagation` (lines 209-216), phrased as a
downward recursion: with `dA` the error of layer `r` and `r` layers still to
process (`k = r-1, r-2, ..., 0`), produce the list of `(dW_k, dB_k)` pairs
in increasing layer order. -/
def backDown (net : NeuralNetwork) (A H : List Mat) (N : ℕ) :
    Mat → ℕ → Except String (List (Mat × Mat))
  | _, 0 => pure []
  | dA, r + 1 => do
      let k := r
      let d ← _activate_derivative (A.getD k []) (H.getD (k + 1) [])
        (net.activation_functions.getD k "")
      let dAk := applyDeriv (dot dA (net.W.getD (k + 1) [])) d
      let dWk := matDiv (dotTH dAk (H.getD k [])) N
      let dBk := matDiv (colSum dAk) N
      let rest ← backDown net A H N dAk r
      pure (rest ++ [(dWk, dBk)])

/-- `NeuralNetwork.back_propagation` (lines 180-222): the two assertions,
the output-layer error, `dW[-1] = dA.T·H[-2]/N`, `dB[-1] = colsum(dA)/N`,
the reverse loop over layers `L-2 .. 0`, and finally — only when
`weight_decay > 0` — the addition of `weight_decay * W[i]` to every `dW[i]`. -/
def back_propagation (net : NeuralNetwork) (X : Mat) (y : List ℕ) (H A : List Mat)
    (loss_type : String) : Except String (List Mat × List Mat) := do
  if ¬(H.length = net.L + 1 ∧ A.length = net.L) then
    .error "AssertionError"
  else
    let N := X.length
    if ¬(N = y.length) then
      .error "AssertionError"
    else do
      let dA ← outputError net H A y loss_type
      let dWtop := matDiv (dotTH dA (H.getD (H.length - 2) [])) N
      let dBtop := matDiv (colSum dA) N
      let lower ← backDown net A H N dA (net.L - 1)
      let dW := lower.map Prod.fst ++ [dWtop]
      let dB := lower.map Prod.snd ++ [dBtop]
      let dW' := if 0 < net.weight_decay then
          List.zipWith (fun dw w => matZip (fun a b => a + net.weight_decay * b) dw w) dW net.W
        else dW
      pure (dW', dB)

/-- `np.argmax` on one row: index of the first maximal entry.  `argmaxAux t
i bi bv` scans `t` whose head sits at index `i`, with current best value
`bv` at index `bi`, replacing the best only on a strict increase. -/
def argmaxAux : List ℝ → ℕ → ℕ → ℝ → ℕ
  | [], _, bi, _ => bi
  | a :: t, i, bi, bv => if bv < a then argmaxAux t (i + 1) i a else argmaxAux t (i + 1) bi bv

/-- `np.argmax(r)` for one row (`0` on the empty row, which NumPy rejects). -/
def argmaxRow : List ℝ → ℕ
  | [] => 0
  | a :: t => argmaxAux t 1 0 a

/-- `NeuralNetwork.predict` (lines 252-261): the final activation of a
forward pass. -/
def predict (net : NeuralNetwork) (X : Mat) : Except String Mat := do
  let hA ← forward_propagation net X
  pure (hA.1.getLastD [])

/-- `np.mean(preds == y)` on two 1-D integer arrays; the code only compares
equal-length vectors (the degenerate NumPy scalar-`False` comparison of
incompatible shapes is modelled as `0`, and never exercised). -/
def npMeanEq (a b : List ℕ) : ℝ :=
  if a.length = b.length then
    ((List.zip a b).countP (fun q => q.1 = q.2) : ℕ) / (a.length : ℝ)
  else 0

/-- `NeuralNetwork.compute_accuracy` (lines 276-286):
`np.mean(np.argmax(self.predict(X), axis=1) == y)`. -/
def compute_accuracy (net : NeuralNetwork) (X : Mat) (y : List ℕ) : Except String ℝ := do
  let p ← predict net X
  pure (npMeanEq (p.map argmaxRow) y)

/-- The `history` dictionary of `train` (lines 315-320): the validation
entries are `None` rather than lists when `X_val is None`. -/
structure History where
  train_loss : List ℝ
  train_acc : List ℝ
  val_loss : Option (List ℝ)
  val_acc : Option (List ℝ)

/-- The mutable state the training loop threads between batches: the network
(whose `W`, `B`, `optimizer` the loop reassigns), the current shuffled
training set, the global iteration counter, the history accumulator, and the
last batch's `H`, `X_batch`, `y_batch` (Python loop variables that leak into
the epoch-end code). -/
structure TState where
  net : NeuralNetwork
  Xs : Mat
  ys : List ℕ
  iter : ℕ
  hist : History
  lastH : List Mat
  lastX : Mat
  lastY : List ℕ

/-- The per-epoch shuffle of `train` (lines 326-328): one index permutation
applied to the inputs and, identically, to the labels. -/
def permute (p : List ℕ) (X : Mat) (y : List ℕ) : Mat × List ℕ :=
  (p.map (fun i => X.getD i []), p.map (fun i => y.getD i 0))

/-- `self.optimizer.update(...)` with `self.optimizer is None` raises
`AttributeError`; reading the attached optimizer is therefore fallible. -/
def getOpt (net : NeuralNetwork) : Except String Optimizer :=
  match net.optimizer with
  | none => .error "AttributeError: NoneType has no attribute update"
  | some o => .ok o

/-- One iteration of the batch loop of `train` (lines 330-350): slice the
batch, forward, backward, optimizer update (which reassigns `self.W`,
`self.B` and advances the optimizer state), the periodic logging branch
(whose loss computations can only raise, their values being printed or
dropped), and the iteration increment.  `iteration % log_every` with
`log_every = 0` raises `ZeroDivisionError` in Python. -/
def batchStep (X_val : Option Mat) (y_val : Option (List ℕ)) (loss_type : String)
    (log_every batch_size n : ℕ) (st : TState) (b : ℕ) : Except String TState := do
  let s := b * batch_size
  let e := min ((b + 1) * batch_size) n
  let Xb := (st.Xs.drop s).take (e - s)
  let yb := (st.ys.drop s).take (e - s)
  let hA ← forward_propagation st.net Xb
  let g ← back_propagation st.net Xb yb hA.1 hA.2 loss_type
  let o ← getOpt st.net
  let u := o.update st.net.W st.net.B g.1 g.2 st.iter
  let net' := { st.net with W := u.1.1, B := u.1.2, optimizer := some u.2 }
  if log_every = 0 then .error "ZeroDivisionError: integer modulo by zero"
  else do
    if st.iter % log_every = 0 then
      let _tl ← compute_loss net' (hA.1.getLastD []) (.idx yb) loss_type
      match X_val, y_val with
      | some xv, some yv => do
          let pv ← predict net' xv
          let _vl ← compute_loss net' pv (.idx yv) loss_type
          pure ()
      | _, _ => pure ()
    else pure ()
    pure { st with net := net', iter := st.iter + 1, lastH := hA.1, lastX := Xb, lastY := yb }

/-- One epoch of `train` (lines 324-364, the console printing and the
optional callback omitted): shuffle, run the batch loop, then the epoch-end
bookkeeping — train loss/accuracy on the last batch, and the UNGUARDED
validation loss/accuracy (source lines 356-359), which dereference `X_val`
and `y_val` even when they are `None` (the Python then raises inside
`predict`/`compute_loss`). -/
def epochStep (rng : ℕ → ℕ → List ℕ) (X_val : Option Mat) (y_val : Option (List ℕ))
    (loss_type : String) (log_every batch_size n num_batches : ℕ)
    (st : TState) (epoch : ℕ) : Except String TState := do
  let p := rng epoch n
  let sh := permute p st.Xs st.ys
  let st1 := { st with Xs := sh.1, ys := sh.2 }
  let st2 ← (List.range num_batches).foldlM
    (batchStep X_val y_val loss_type log_every batch_size n) st1
  let tl ← compute_loss st2.net (st2.lastH.getLastD []) (.idx st2.lastY) loss_type
  let ta ← compute_accuracy st2.net st2.lastX st2.lastY
  let hist1 := { st2.hist with train_loss := st2.hist.train_loss ++ [tl],
                               train_acc := st2.hist.train_acc ++ [ta] }
  match X_val, y_val with
  | some xv, some yv => do
      let pv ← predict st2.net xv
      let vl ← compute_loss st2.net pv (.idx yv) loss_type
      let va ← compute_accuracy st2.net xv yv
      pure { st2 with hist :=
        { hist1 with val_loss := hist1.val_loss.map (fun l => l ++ [vl]),
                     val_acc := hist1.val_acc.map (fun l => l ++ [va]) } }
  | _, _ =>
      .error "TypeError: unsupported operand, X_val or y_val is None at epoch end"

/-- Lines 306-307 of `train`: attach a default SGD optimizer with learning
rate 0.01 when none is set. -/
def trainInit (net : NeuralNetwork) : Except String NeuralNetwork :=
  if net.optimizer.isNone then set_optimizer net "sgd" 0.01 else .ok net

/-- `NeuralNetwork.train` (lines 288-366).  `rng epoch n` supplies the index
permutation `np.random.permutation(n)` drawn at the start of each epoch.
`int(np.ceil(...))` of the batch count, and the `int(np.log10(...)+1)`
spacers, raise `OverflowError` when `batch_size`, `num_batches` or
`num_epochs` is 0; the callback parameter (`None` throughout the claims) is
omitted.  Returns the history together with the final network state. -/
def train (rng : ℕ → ℕ → List ℕ) (net : NeuralNetwork) (X : Mat) (y : List ℕ)
    (X_val : Option Mat) (y_val : Option (List ℕ)) (batch_size num_epochs : ℕ)
    (loss_type : String) (log_every : ℕ) : Except String (History × NeuralNetwork) := do
  let net1 ← trainInit net
  let n := X.length
  if batch_size = 0 then .error "OverflowError: cannot convert float infinity to integer"
  else
    let num_batches := (n + batch_size - 1) / batch_size
    if num_epochs = 0 ∨ num_batches = 0 then
      .error "OverflowError: cannot convert float -inf to integer"
    else do
      let hist0 : History :=
        { train_loss := [], train_acc := [],
          val_loss := if X_val.isSome then some [] else none,
          val_acc := if X_val.isSome then some [] else none }
      let st0 : TState :=
        { net := net1, Xs := X, ys := y, iter := 0, hist := hist0,
          lastH := [], lastX := [], lastY := [] }
      let stF ← (List.range num_epochs).foldlM
        (epochStep rng X_val y_val loss_type log_every batch_size n num_batches) st0
      pure (stF.hist, stF.net)

/-- State-passing form of `forward_propagation`: the method body reads
`self.L`, `self.W`, `self.B`, `self.activation_functions` but contains no
assignment to `self`, so the translation threads the receiver through
unchanged. -/
def forward_propagationS (net : NeuralNetwork) (X : Mat) :
    (Except String (List Mat × List Mat)) × NeuralNetwork :=
  (forward_propagation net X, net)

/-- State-passing form of `predict` (no assignment to `self`). -/
def predictS (net : NeuralNetwork) (X : Mat) : (Except String Mat) × NeuralNetwork :=
  (predict net X, net)

/-- State-passing form of `compute_loss` (no assignment to `self`). -/
def compute_lossS (net : NeuralNetwork) (H_final : Mat) (y : Labels) (loss_type : String) :
    (Except String ℝ) × NeuralNetwork :=
  (compute_loss net H_final y loss_type, net)

/-- State-passing form of `compute_accuracy` (no assignment to `self`). -/
def compute_accuracyS (net : NeuralNetwork) (X : Mat) (y : List ℕ) :
    (Except String ℝ) × NeuralNetwork :=
  (compute_accuracy net X y, net)

/-- The claim-side error recursion of spec section 4.3, written from the
spec's words for claim C2: `dA_chain j` is the error `dA` of layer
`L-1-j` — `dA_chain 0` is the output-layer error, and each further step
multiplies by the next weight matrix and the activation derivative. -/
def dA_chain (net : NeuralNetwork) (H A : List Mat) (y : List ℕ) (loss_type : String) :
    ℕ → Except String Mat
  | 0 => outputError net H A y loss_type
  | j + 1 => do
      let prev ← dA_chain net H A y loss_type j
      let k := net.L - 1 - (j + 1)
      let d ← _activate_derivative (A.getD k []) (H.getD (k + 1) [])
        (net.activation_functions.getD k "")
      pure (applyDeriv (dot prev (net.W.getD (k + 1) [])) d)


section Helpers

/-- Destructor for a successful `Except` bind. -/
theorem ok_of_bind {α β : Type} {e : Except String α} {f : α → Except String β} {r : β}
    (h : (e >>= f) = .ok r) : ∃ a, e = .ok a ∧ f a = .ok r := by
  cases e with
  | error s => exact Except.noConfusion h
  | ok a => exact ⟨a, rfl, h⟩

/-- `ok` on the left of a bind reduces. -/
@[simp] theorem okBind {α β : Type} (a : α) (f : α → Except String β) :
    (Except.ok a >>= f) = f a := rfl

/-- `error` on the left of a bind reduces. -/
@[simp] theorem errorBind {α β : Type} (s : String) (f : α → Except String β) :
    ((Except.error s : Except String α) >>= f) = .error s := rfl

/-- A bind whose continuation never succeeds never succeeds. -/
theorem bind_ne_ok {α β : Type} (e : Except String α) (f : α → Except String β)
    (hf : ∀ a r, f a ≠ .ok r) : ∀ r, (e >>= f) ≠ .ok r := by
  intro r h
  rcases ok_of_bind h with ⟨a, _, hfa⟩
  exact hf a r hfa

/-- A bind whose scrutinee never succeeds never succeeds. -/
theorem err_bind_ne_ok {α β : Type} (e : Except String α) (f : α → Except String β)
    (he : ∀ a, e ≠ .ok a) : ∀ r, (e >>= f) ≠ .ok r := by
  intro r h
  rcases ok_of_bind h with ⟨a, hea, _⟩
  exact he a hea

end Helpers

/-- Claim C10: `forward_propagation`, `predict`, `compute_loss` and
`compute_accuracy` contain no assignment to `self`; their state-passing
translations return the network — weights `W`, biases `B` and the attached
optimizer included — unchanged. -/
theorem claim_C10_readers_pure (net : NeuralNetwork) (X H_final : Mat) (y : Labels)
    (yv : List ℕ) (lt : String) :
    (forward_propagationS net X).2 = net ∧ (predictS net X).2 = net ∧
    (compute_lossS net H_final y lt).2 = net ∧ (compute_accuracyS net X yv).2 = net :=
  ⟨rfl, rfl, rfl, rfl⟩

/-- Claim C1: in `back_propagation` the output-layer error is
`H[-1] - one_hot(y)` when the loss is cross-entropy and the final
activation is softmax, and otherwise it is the loss derivative at
`(H[-1], y)` times the activation derivative at `(A[-1], H[-1])` for the
final layer's kind. -/
theorem claim_C1_output_error (net : NeuralNetwork) (H A : List Mat) (y : List ℕ)
    (lt : String) :
    (pyLower lt = "cross_entropy" ∧
        pyLower (net.activation_functions.getLastD "") = "softmax" →
      outputError net H A y lt = (do
        let Y ← one_hot net y
        pure (matZip (fun a b => a - b) (H.getLastD []) Y))) ∧
    (¬(pyLower lt = "cross_entropy" ∧
        pyLower (net.activation_functions.getLastD "") = "softmax") →
      outputError net H A y lt = (do
        let dH ← _loss_derivative net (H.getLastD []) (.idx y) lt
        let d ← _activate_derivative (A.getLastD []) (H.getLastD [])
          (net.activation_functions.getLastD "")
        pure (applyDeriv dH d))) := by
  constructor
  · intro h
    rw [outputError, if_pos h]
  · intro h
    rw [outputError, if_neg h]

/-- Witness for C1 at a concrete softmax + cross-entropy network. -/
theorem claim_C1_witness :
    outputError
      { layer_sizes := [1, 1], L := 1, activation_functions := ["softmax"],
        W := [[[1]]], B := [[[0]]], weight_decay := 0, optimizer := none }
      [[[1]], [[1]]] [[[1]]] [0] "cross_entropy" = (do
        let Y ← one_hot
          { layer_sizes := [1, 1], L := 1, activation_functions := ["softmax"],
            W := [[[1]]], B := [[[0]]], weight_decay := 0, optimizer := none } [0]
        pure (matZip (fun a b => a - b) ([[[(1 : ℝ)]], [[1]]].getLastD []) Y)) :=
  (claim_C1_output_error _ _ _ _ _).1 ⟨by decide, by decide⟩


/-- Counterexample for C6: a network whose activation list contains the
unsupported name "bogus" is constructed without any error — the invalid
activation name is NOT rejected at the construction boundary; `activate`
only rejects it later, at first use. -/
theorem claim_C6_counterexample :
    (nn_init (fun _ _ _ => 0) (fun _ _ _ => 0) [1, 1] ["bogus"] 0 "random").isOk = true ∧
    activate [[0]] "bogus" = .error "Unsupported activation function: bogus" := by
  constructor
  · rfl
  · rfl

/-- Claim C6 as amended: length mismatches and unsupported weight-init
names fail at construction (the weight-init error naming the value, the
mismatch with the fixed assertion message); unsupported optimizer names
fail at attachment naming the value; unsupported activation and loss names
are not construction-time checks — they fail, naming the value, when the
activation or loss is first used.  Nothing is silently defaulted. -/
theorem claim_C6_amended :
    (∀ ru rn (ls : List ℕ) (af : List String) (wd : ℝ) wi,
       ls.length ≠ af.length + 1 →
       nn_init ru rn ls af wd wi = .error
         "AssertionError: Number of layers (excluding input layer) and activations must match") ∧
    (∀ ru rn (ls : List ℕ) (af : List String) (wd : ℝ) wi,
       ls.length = af.length + 1 →
       pyLower wi ≠ "random" → pyLower wi ≠ "xavier" →
       nn_init ru rn ls af wd wi = .error ("Unsupported weight initialization: " ++ wi)) ∧
    (∀ (net : NeuralNetwork) name lr,
       optimizer_map_names.contains (pyLower name) = false →
       set_optimizer net name lr = .error ("Unsupported optimizer: " ++ name)) ∧
    (∀ (M : Mat) a, pyLower a ≠ "sigmoid" → pyLower a ≠ "relu" → pyLower a ≠ "tanh" →
       pyLower a ≠ "softmax" → pyLower a ≠ "identity" →
       activate M a = .error ("Unsupported activation function: " ++ a)) ∧
    (∀ (net : NeuralNetwork) (Hf M : Mat) lt,
       pyLower lt ≠ "cross_entropy" → pyLower lt ≠ "mse" →
       pyLower lt ≠ "mean_squared_error" →
       compute_loss net Hf (.arr M) lt = .error ("Unsupported loss function: " ++ lt)) := by
  refine ⟨?_, ?_, ?_, ?_, ?_⟩
  · intro ru rn ls af wd wi h
    simp [nn_init, h]
  · intro ru rn ls af wd wi h h1 h2
    simp [nn_init, h, h1, h2]
  · intro net name lr h
    rw [set_optimizer, if_neg]
    simpa using h
  · intro M a h1 h2 h3 h4 h5
    simp [activate, h1, h2, h3, h4, h5]
  · intro net Hf M lt h1 h2 h3
    simp [compute_loss, Except.bind, h1, h2, h3]

/-- Witness for the amended C6 at concrete invalid configurations. -/
theorem claim_C6_amended_witness :
    nn_init (fun _ _ _ => 0) (fun _ _ _ => 0) [1] ["a"] 0 "random" = .error
      "AssertionError: Number of layers (excluding input layer) and activations must match" ∧
    nn_init (fun _ _ _ => 0) (fun _ _ _ => 0) [1, 1] ["a"] 0 "Uniform" = .error
      "Unsupported weight initialization: Uniform" ∧
    set_optimizer
      { layer_sizes := [1, 1], L := 1, activation_functions := ["identity"],
        W := [[[1]]], B := [[[0]]], weight_decay := 0, optimizer := none }
      "AdaGrad" 1 = .error "Unsupported optimizer: AdaGrad" ∧
    activate [[0]] "swish" = .error "Unsupported activation function: swish" ∧
    compute_loss
      { layer_sizes := [1, 1], L := 1, activation_functions := ["identity"],
        W := [[[1]]], B := [[[0]]], weight_decay := 0, optimizer := none }
      [[0]] (.arr [[0]]) "huber" = .error "Unsupported loss function: huber" :=
  ⟨claim_C6_amended.1 _ _ _ _ _ _ (by decide),
   claim_C6_amended.2.1 _ _ _ _ _ _ (by decide) (by decide) (by decide),
   claim_C6_amended.2.2.1 _ _ _ (by decide),
   claim_C6_amended.2.2.2.1 _ _ (by decide) (by decide) (by decide) (by decide) (by decide),
   claim_C6_amended.2.2.2.2 _ _ _ _ (by decide) (by decide) (by decide)⟩


/-- A list zipped with an equally long list, written as indexing over
`range`. -/
theorem zip_as_range_map : ∀ (X : Mat) (y : List ℕ), X.length = y.length →
    X.zip y = (List.range X.length).map (fun i => (X.getD i [], y.getD i 0)) := by
  intro X
  induction X with
  | nil => intro y h; simp
  | cons x xs ih =>
    intro y h
    cases y with
    | nil => simp at h
    | cons a ys =>
      have h' : xs.length = ys.length := by simpa using h
      simp only [List.zip_cons_cons, List.length_cons, List.range_succ_eq_map, List.map_cons,
        List.map_map, List.getD_cons_zero, List.cons.injEq, true_and]
      rw [ih ys h']
      rfl

/-- Claim C9: the per-epoch shuffle applies one permutation to the inputs
and the same permutation to the labels, so the multiset of (input, label)
pairs is unchanged. -/
theorem claim_C9_shuffle (p : List ℕ) (X : Mat) (y : List ℕ) (n : ℕ)
    (hp : p.Perm (List.range n)) (hX : X.length = n) (hy : y.length = n) :
    (((permute p X y).1.zip (permute p X y).2 : List (List ℝ × ℕ)) : Multiset (List ℝ × ℕ)) =
      ((X.zip y : List (List ℝ × ℕ)) : Multiset (List ℝ × ℕ)) := by
  refine Multiset.coe_eq_coe.mpr ?_
  unfold permute
  rw [List.zip_map']
  refine (hp.map (fun i => (X.getD i [], y.getD i 0))).trans ?_
  rw [zip_as_range_map X y (hX.trans hy.symm), hX]

/-- Witness for C9 on a concrete two-element shuffle. -/
theorem claim_C9_witness :
    ((((permute [1, 0] [[1], [2]] [3, 4]).1.zip (permute [1, 0] [[1], [2]] [3, 4]).2 :
        List (List ℝ × ℕ))) : Multiset (List ℝ × ℕ)) =
      ((([[1], [2]] : Mat).zip [3, 4] : List (List ℝ × ℕ)) : Multiset (List ℝ × ℕ)) :=
  claim_C9_shuffle [1, 0] [[1], [2]] [3, 4] 2 (by decide) (by decide) (by decide)

/-- `argmaxAux` keeps its running best when nothing in the tail beats it. -/
theorem argmaxAux_le (t : List ℝ) : ∀ (i bi : ℕ) (bv : ℝ),
    (∀ a ∈ t, a ≤ bv) → argmaxAux t i bi bv = bi := by
  induction t with
  | nil => intros; rfl
  | cons a t ih =>
    intro i bi bv h
    rw [argmaxAux, if_neg (not_lt.mpr (h a (List.mem_cons_self a t)))]
    exact ih _ _ _ (fun x hx => h x (List.mem_cons_of_mem a hx))

/-- Scanning a 0/1 indicator row with current best `0` lands on the index
of the single `1`. -/
theorem argmaxAux_indicator : ∀ (c s : ℕ), s < c → ∀ (i bi : ℕ),
    argmaxAux ((List.range c).map (fun j => if s = j then (1 : ℝ) else 0)) i bi 0 = i + s := by
  intro c
  induction c with
  | zero => intro s h; exact absurd h (Nat.not_lt_zero s)
  | succ c ih =>
    intro s hs i bi
    rw [List.range_succ_eq_map, List.map_cons, List.map_map]
    cases s with
    | zero =>
      rw [argmaxAux, if_pos (by norm_num), argmaxAux_le]
      · omega
      · intro a ha
        rcases List.mem_map.mp ha with ⟨j, _, rfl⟩
        simp only [Function.comp_apply]
        split_ifs <;> norm_num
    | succ s' =>
      rw [argmaxAux, if_neg (by simp)]
      have hfun : ((fun j => if s' + 1 = j then (1 : ℝ) else 0) ∘ Nat.succ) =
          (fun j => if s' = j then (1 : ℝ) else 0) := by
        funext j
        simp [Function.comp, Nat.succ_inj]
      rw [hfun, ih s' (by omega)]
      omega

/-- `np.argmax` of a one-hot indicator row recovers the hot index. -/
theorem argmax_one_hot_row (C k : ℕ) (h : k < C) :
    argmaxRow ((List.range C).map (fun j => if k = j then (1 : ℝ) else 0)) = k := by
  cases C with
  | zero => omega
  | succ c =>
    rw [List.range_succ_eq_map, List.map_cons, List.map_map]
    cases k with
    | zero =>
      rw [argmaxRow, argmaxAux_le]
      intro a ha
      rcases List.mem_map.mp ha with ⟨j, _, rfl⟩
      simp only [Function.comp_apply]
      split_ifs <;> norm_num
    | succ s =>
      rw [argmaxRow]
      have hfun : ((fun j => if s + 1 = j then (1 : ℝ) else 0) ∘ Nat.succ) =
          (fun j => if s = j then (1 : ℝ) else 0) := by
        funext j
        simp [Function.comp, Nat.succ_inj]
      rw [hfun, if_neg (show ¬(s + 1 = 0) by omega), argmaxAux_indicator c s (by omega)]
      omega

/-- `getD` through a map over `range`. -/
theorem getD_range_map {α : Type} (n : ℕ) (g : ℕ → α) (i : ℕ) (d : α) (h : i < n) :
    ((List.range n).map g).getD i d = g i := by
  rw [List.getD_eq_getElem?_getD, List.getElem?_map, List.getElem?_range h]
  rfl

/-- Claim C8: for in-range integer labels, `one_hot` succeeds, row-wise
`argmax` of the one-hot matrix recovers the labels, and each row carries a
single `1` at the label's column with `0` everywhere else. -/
theorem claim_C8_one_hot (net : NeuralNetwork) (y : List ℕ)
    (h : ∀ i, i < y.length → y.getD i 0 < net.layer_sizes.getLastD 0) :
    ∃ M, one_hot net y = .ok M ∧
      (∀ i, i < y.length → argmaxRow (M.getD i []) = y.getD i 0) ∧
      (∀ i, i < y.length →
        (M.getD i []).getD (y.getD i 0) 0 = 1 ∧
        ∀ j, j < net.layer_sizes.getLastD 0 → j ≠ y.getD i 0 → (M.getD i []).getD j 0 = 0) := by
  have hall : y.all (fun v => v < net.layer_sizes.getLastD 0) = true := by
    rw [List.all_eq_true]
    intro v hv
    rcases List.mem_iff_getElem.mp hv with ⟨i, hi, rfl⟩
    have := h i hi
    rw [List.getD_eq_getElem y 0 hi] at this
    simpa using this
  have hrow : ∀ i, i < y.length →
      (mkMat y.length (net.layer_sizes.getLastD 0)
          (fun i j => if y.getD i 0 = j then 1 else 0)).getD i [] =
        (List.range (net.layer_sizes.getLastD 0)).map
          (fun j => if y.getD i 0 = j then (1 : ℝ) else 0) := by
    intro i hi
    rw [mkMat, getD_range_map _ _ _ _ hi]
  refine ⟨mkMat y.length (net.layer_sizes.getLastD 0)
    (fun i j => if y.getD i 0 = j then 1 else 0), ?_, ?_, ?_⟩
  · simp only [one_hot]
    rw [if_pos hall]
  · intro i hi
    rw [hrow i hi]
    exact argmax_one_hot_row _ _ (h i hi)
  · intro i hi
    rw [hrow i hi]
    constructor
    · rw [getD_range_map _ _ _ _ (h i hi), if_pos rfl]
    · intro j hj hne
      rw [getD_range_map _ _ _ _ hj, if_neg (fun he => hne he.symm)]

/-- Witness for C8 on a two-class network with labels `[1, 0]`. -/
theorem claim_C8_witness :
    ∃ M, one_hot
        { layer_sizes := [1, 2], L := 1, activation_functions := ["softmax"],
          W := [[[1], [1]]], B := [[[0, 0]]], weight_decay := 0, optimizer := none }
        [1, 0] = .ok M ∧
      (∀ i, i < [1, 0].length → argmaxRow (M.getD i []) = [1, 0].getD i 0) ∧
      (∀ i, i < [1, 0].length →
        (M.getD i []).getD ([1, 0].getD i 0) 0 = 1 ∧
        ∀ j, j < ([1, 2] : List ℕ).getLastD 0 → j ≠ [1, 0].getD i 0 →
          (M.getD i []).getD j 0 = 0) :=
  claim_C8_one_hot _ [1, 0] (by decide)


/-- `lower()` fixes the lower-case tag "cross_entropy". -/
theorem pyLower_ce : pyLower "cross_entropy" = "cross_entropy" := rfl

/-- `lower()` fixes the lower-case tag "mse". -/
theorem pyLower_mse : pyLower "mse" = "mse" := rfl

/-- `lower()` fixes the lower-case tag "identity". -/
theorem pyLower_identity : pyLower "identity" = "identity" := rfl

/-- `lower()` fixes the lower-case tag "softmax". -/
theorem pyLower_softmax : pyLower "softmax" = "softmax" := rfl

/-- `lower()` fixes the lower-case tag "sgd". -/
theorem pyLower_sgd : pyLower "sgd" = "sgd" := rfl

/-- Counterexample for C3: on the 2-class network, predictions
`[[1/2, 1/2]]` and the 1-D integer label vector `[0]`, the cross-entropy
gradient returned by `_loss_derivative` is NOT `-one_hot(y)/(y_pred+1e-15)`
— the code never one-hot expands in this branch; NumPy broadcasting of the
raw label `0` yields the zero matrix instead. -/
theorem claim_C3_counterexample :
    _loss_derivative
      { layer_sizes := [1, 2], L := 1, activation_functions := ["sigmoid"],
        W := [[[1], [1]]], B := [[[0, 0]]], weight_decay := 0, optimizer := none }
      [[1/2, 1/2]] (.idx [0]) "cross_entropy" ≠
    .ok (matZip (fun a b => -a / (b + npEps))
      (mkMat 1 2 (fun i j => if [0].getD i 0 = j then 1 else 0)) [[1/2, 1/2]]) := by
  intro h
  have h2 := congrArg
    (fun e => match e with | Except.ok M => entry M 0 0 | Except.error _ => (37 : ℝ)) h
  simp only [_loss_derivative, pyLower_ce] at h2
  norm_num [matZip, mkMat, entry, rowsOf, colsOf, List.range_succ, npEps] at h2

/-- Claim C3 as amended: the cross-entropy LOSS one-hot expands 1-D integer
labels and equals `-sum(y_onehot * log(y_pred + 1e-15)) / m`; the
cross-entropy GRADIENT does not one-hot expand — on (already one-hot)
matrix labels it is `-y/(y_pred+1e-15)` elementwise, while a 1-D integer
label vector is used as raw numbers under NumPy broadcasting; only the mse
gradient one-hot expands 1-D integer labels. -/
theorem claim_C3_amended :
    (∀ (net : NeuralNetwork) (pred : Mat) (y : List ℕ),
       (∀ v ∈ y, v < net.layer_sizes.getLastD 0) →
       compute_loss net pred (.idx y) "cross_entropy" =
         .ok (-(sumAll (matZip (fun a b => a * b)
             (mkMat y.length (net.layer_sizes.getLastD 0)
               (fun i j => if y.getD i 0 = j then 1 else 0))
             (mapMat (fun x => Real.log (x + npEps)) pred))) / (y.length : ℝ))) ∧
    (∀ (net : NeuralNetwork) (pred Y : Mat),
       _loss_derivative net pred (.arr Y) "cross_entropy" =
         .ok (matZip (fun a b => -a / (b + npEps)) Y pred)) ∧
    (∀ (net : NeuralNetwork) (pred : Mat) (y : List ℕ),
       (∀ v ∈ y, v < net.layer_sizes.getLastD 0) →
       _loss_derivative net pred (.idx y) "mse" =
         .ok (matZip (fun a b => (a - b) / (y.length : ℝ)) pred
           (mkMat y.length (net.layer_sizes.getLastD 0)
             (fun i j => if y.getD i 0 = j then 1 else 0)))) := by
  refine ⟨?_, ?_, ?_⟩
  · intro net pred y h
    have hall : (y.all fun v => decide (v < net.layer_sizes.getLastD 0)) = true := by
      rw [List.all_eq_true]
      intro v hv
      simpa using h v hv
    simp only [compute_loss, one_hot]
    rw [if_pos hall]
    simp [pyLower_ce, mkMat]
  · intro net pred Y
    simp [_loss_derivative, pyLower_ce]
  · intro net pred y h
    have hall : (y.all fun v => decide (v < net.layer_sizes.getLastD 0)) = true := by
      rw [List.all_eq_true]
      intro v hv
      simpa using h v hv
    simp only [_loss_derivative, one_hot, pyLower_mse]
    rw [if_neg (by simp), if_pos (by simp)]
    rw [if_pos hall]
    simp [mkMat]

/-- Witness for the amended C3 on the 2-class network. -/
theorem claim_C3_amended_witness :
    compute_loss
      { layer_sizes := [1, 2], L := 1, activation_functions := ["sigmoid"],
        W := [[[1], [1]]], B := [[[0, 0]]], weight_decay := 0, optimizer := none }
      [[1/2, 1/2]] (.idx [1]) "cross_entropy" =
      .ok (-(sumAll (matZip (fun a b => a * b)
          (mkMat [1].length (([1, 2] : List ℕ).getLastD 0)
            (fun i j => if [1].getD i 0 = j then 1 else 0))
          (mapMat (fun x => Real.log (x + npEps)) [[1/2, 1/2]]))) / (([1] : List ℕ).length : ℝ)) ∧
    _loss_derivative
      { layer_sizes := [1, 2], L := 1, activation_functions := ["sigmoid"],
        W := [[[1], [1]]], B := [[[0, 0]]], weight_decay := 0, optimizer := none }
      [[1/2, 1/2]] (.idx [1]) "mse" =
      .ok (matZip (fun a b => (a - b) / (([1] : List ℕ).length : ℝ)) [[1/2, 1/2]]
        (mkMat [1].length (([1, 2] : List ℕ).getLastD 0)
          (fun i j => if [1].getD i 0 = j then 1 else 0))) :=
  ⟨claim_C3_amended.1 _ [[1/2, 1/2]] [1] (by decide),
   claim_C3_amended.2.2 _ [[1/2, 1/2]] [1] (by decide)⟩


/-- `Except.map` of an error. -/
@[simp] theorem mapError {α β : Type} (s : String) (f : α → β) :
    (Except.error s : Except String α).map f = .error s := rfl

/-- `Except.map` of a success. -/
@[simp] theorem mapOk {α β : Type} (a : α) (f : α → β) :
    (Except.ok a : Except String α).map f = .ok (f a) := rfl

/-- The output-layer error never reads `weight_decay`. -/
theorem outputError_wd0 (net : NeuralNetwork) (H A : List Mat) (y : List ℕ) (lt : String) :
    outputError { net with weight_decay := 0 } H A y lt = outputError net H A y lt := rfl

/-- The backward layer loop never reads `weight_decay`. -/
theorem backDown_wd0 (net : NeuralNetwork) (A H : List Mat) (N : ℕ) :
    ∀ (dA : Mat) (r : ℕ),
      backDown { net with weight_decay := 0 } A H N dA r = backDown net A H N dA r := by
  intro dA r
  induction r generalizing dA with
  | zero => rfl
  | succ r ih =>
    simp only [backDown]
    simp only [ih]

/-- Claim C4: with `weight_decay > 0`, `back_propagation` returns exactly
the gradients of the same network with `weight_decay = 0` plus
`weight_decay * W[i]` added elementwise to each `dW[i]`, with the bias
gradients `dB` identical (and the error behaviour identical too). -/
theorem claim_C4_weight_decay (net : NeuralNetwork) (X : Mat) (y : List ℕ) (H A : List Mat)
    (lt : String) (hwd : 0 < net.weight_decay) :
    back_propagation net X y H A lt =
      (back_propagation { net with weight_decay := 0 } X y H A lt).map
        (fun g => (List.zipWith (fun dw w =>
            matZip (fun a b => a + net.weight_decay * b) dw w) g.1 net.W, g.2)) := by
  unfold back_propagation
  dsimp only
  by_cases h1 : H.length = net.L + 1 ∧ A.length = net.L
  · rw [if_neg (not_not_intro h1), if_neg (not_not_intro h1)]
    by_cases h2 : X.length = y.length
    · rw [if_neg (not_not_intro h2), if_neg (not_not_intro h2)]
      simp only [outputError_wd0, backDown_wd0]
      cases hOE : outputError net H A y lt with
      | error s => simp
      | ok dA =>
        simp only [okBind]
        cases hBD : backDown net A H X.length dA (net.L - 1) with
        | error s => simp
        | ok lower =>
          simp only [okBind]
          rw [if_pos hwd, if_neg (lt_irrefl (0 : ℝ))]
          rfl
    · rw [if_pos h2, if_pos h2]
      rfl
  · rw [if_pos h1, if_pos h1]
    rfl

/-- Witness for C4 on a one-layer network with `weight_decay = 1`. -/
theorem claim_C4_witness :
    back_propagation
      { layer_sizes := [1, 1], L := 1, activation_functions := ["identity"],
        W := [[[1]]], B := [[[0]]], weight_decay := 1, optimizer := none }
      [[1]] [0] [[[1]], [[1]]] [[[1]]] "mse" =
      (back_propagation
        { layer_sizes := [1, 1], L := 1, activation_functions := ["identity"],
          W := [[[1]]], B := [[[0]]], weight_decay := 0, optimizer := none }
        [[1]] [0] [[[1]], [[1]]] [[[1]]] "mse").map
        (fun g => (List.zipWith (fun dw w =>
            matZip (fun a b => a + (1 : ℝ) * b) dw w) g.1 [[[1]]], g.2)) := by
  exact claim_C4_weight_decay
    { layer_sizes := [1, 1], L := 1, activation_functions := ["identity"],
      W := [[[1]]], B := [[[0]]], weight_decay := 1, optimizer := none }
    [[1]] [0] [[[1]], [[1]]] [[[1]]] "mse" (show (0 : ℝ) < 1 by norm_num)


/-- `train` written as an explicit composition of its stages (definitional
restatement used to destructure runs of the training loop). -/
theorem train_eq (rng : ℕ → ℕ → List ℕ) (net : NeuralNetwork) (X : Mat) (y : List ℕ)
    (Xv : Option Mat) (yv : Option (List ℕ)) (bs ne : ℕ) (lt : String) (le : ℕ) :
    train rng net X y Xv yv bs ne lt le =
      trainInit net >>= fun net1 =>
        if bs = 0 then .error "OverflowError: cannot convert float infinity to integer"
        else if ne = 0 ∨ (X.length + bs - 1) / bs = 0 then
          .error "OverflowError: cannot convert float -inf to integer"
        else
          (List.range ne).foldlM
            (epochStep rng Xv yv lt le bs X.length ((X.length + bs - 1) / bs))
            { net := net1, Xs := X, ys := y, iter := 0,
              hist := { train_loss := [], train_acc := [],
                        val_loss := if Xv.isSome then some [] else none,
                        val_acc := if Xv.isSome then some [] else none },
              lastH := [], lastX := [], lastY := [] } >>=
          fun stF => pure (stF.hist, stF.net) := rfl

/-- The epoch-end code of `train` (source lines 356-359) dereferences the
validation data unconditionally, so an epoch can never complete without it:
with `X_val = None` and `y_val = None`, `epochStep` never succeeds. -/
theorem epochStep_no_val_ne_ok (rng : ℕ → ℕ → List ℕ) (lt : String) (le bs n nb : ℕ)
    (st : TState) (e : ℕ) :
    ∀ r, epochStep rng none none lt le bs n nb st e ≠ .ok r := by
  unfold epochStep
  apply bind_ne_ok
  intro st2 r2
  refine bind_ne_ok _ _ ?_ r2
  intro tl r3
  refine bind_ne_ok _ _ ?_ r3
  intro ta r4
  intro hcon
  exact Except.noConfusion hcon

/-- Claim C5 (the code's actual behaviour): a call to `train` with
`X_val = None` and `y_val = None` NEVER returns a history — the unguarded
epoch-end validation computation fails on the absent data (and the
degenerate parameter values fail even earlier), for every network and
every choice of the remaining arguments. -/
theorem claim_C5_no_val_never_ok (rng : ℕ → ℕ → List ℕ) (net : NeuralNetwork) (X : Mat)
    (y : List ℕ) (bs ne : ℕ) (lt : String) (le : ℕ) :
    ∀ r, train rng net X y none none bs ne lt le ≠ .ok r := by
  rw [train_eq]
  apply bind_ne_ok
  intro net1 r
  by_cases hbs : bs = 0
  · simp only [if_pos hbs]
    exact fun h => Except.noConfusion h
  · simp only [if_neg hbs]
    by_cases hne : ne = 0 ∨ (X.length + bs - 1) / bs = 0
    · simp only [if_pos hne]
      exact fun h => Except.noConfusion h
    · simp only [if_neg hne]
      have hne1 : ne ≠ 0 := fun h0 => hne (Or.inl h0)
      obtain ⟨m, rfl⟩ : ∃ m, ne = m + 1 := ⟨ne - 1, by omega⟩
      simp only [List.range_succ_eq_map, List.foldlM_cons]
      exact err_bind_ne_ok _ _
        (err_bind_ne_ok _ _ (epochStep_no_val_ne_ok _ _ _ _ _ _ _ _)) r

/-- Witness for C5: the concrete failing call of the claim. -/
theorem claim_C5_witness :
    train (fun _ n => List.range n)
      { layer_sizes := [1, 1], L := 1, activation_functions := ["identity"],
        W := [[[1]]], B := [[[0]]], weight_decay := 0, optimizer := none }
      [[1]] [0] none none 1 1 "mse" 100 ≠
    .ok ({ train_loss := [], train_acc := [], val_loss := none, val_acc := none },
      { layer_sizes := [1, 1], L := 1, activation_functions := ["identity"],
        W := [[[1]]], B := [[[0]]], weight_decay := 0, optimizer := none }) :=
  claim_C5_no_val_never_ok _ _ _ _ _ _ _ _ _

/-- Every optimizer update keeps the variant name and the learning rate. -/
theorem update_keeps_name_lr (o : Optimizer) (W B dW dB : List Mat) (step : ℕ) :
    (o.update W B dW dB step).2.name = o.name ∧
    (o.update W B dW dB step).2.learning_rate = o.learning_rate := by
  unfold Optimizer.update
  split_ifs <;> exact ⟨rfl, rfl⟩

/-- One batch step of `train` keeps the attached optimizer's identity
(name and learning rate); it only advances the optimizer's auxiliary
state and the network parameters. -/
theorem batchStep_keeps (Xv : Option Mat) (yv : Option (List ℕ)) (lt : String)
    (le bs n : ℕ) (st : TState) (b : ℕ) (st' : TState)
    (h : batchStep Xv yv lt le bs n st b = .ok st') :
    st'.net.optimizer.map (fun o => (o.name, o.learning_rate)) =
      st.net.optimizer.map (fun o => (o.name, o.learning_rate)) := by
  unfold batchStep at h
  obtain ⟨hA, _, h⟩ := ok_of_bind h
  obtain ⟨g, _, h⟩ := ok_of_bind h
  obtain ⟨o, hopt, h⟩ := ok_of_bind h
  have hsome : st.net.optimizer = some o := by
    unfold getOpt at hopt
    cases hx : st.net.optimizer with
    | none => rw [hx] at hopt; exact Except.noConfusion hopt
    | some o2 =>
      rw [hx] at hopt
      exact congrArg some ((Except.ok.injEq _ _).mp hopt)
  by_cases hle : le = 0
  · simp only [if_pos hle] at h
    exact Except.noConfusion h
  · simp only [if_neg hle] at h
    have hst' : st'.net.optimizer =
        some (o.update st.net.W st.net.B g.1 g.2 st.iter).2 := by
      split at h
      · obtain ⟨_, _, h⟩ := ok_of_bind h
        split at h
        · obtain ⟨_, _, h⟩ := ok_of_bind h
          obtain ⟨_, _, h⟩ := ok_of_bind h
          rw [((Except.ok.injEq _ _).mp h).symm]
        · rw [((Except.ok.injEq _ _).mp h).symm]
      · rw [((Except.ok.injEq _ _).mp h).symm]
    rw [hst', hsome]
    simp [(update_keeps_name_lr o st.net.W st.net.B g.1 g.2 st.iter).1,
      (update_keeps_name_lr o st.net.W st.net.B g.1 g.2 st.iter).2]

/-- Folding optimizer-identity preservation over a list of steps. -/
theorem foldlM_keeps {α : Type} (f : TState → α → Except String TState)
    (hf : ∀ s a s', f s a = .ok s' →
      s'.net.optimizer.map (fun o => (o.name, o.learning_rate)) =
        s.net.optimizer.map (fun o => (o.name, o.learning_rate))) :
    ∀ (l : List α) (s s' : TState), l.foldlM f s = .ok s' →
      s'.net.optimizer.map (fun o => (o.name, o.learning_rate)) =
        s.net.optimizer.map (fun o => (o.name, o.learning_rate)) := by
  intro l
  induction l with
  | nil =>
    intro s s' h
    cases h
    rfl
  | cons a t ih =>
    intro s s' h
    rw [List.foldlM_cons] at h
    obtain ⟨m, hm, hrest⟩ := ok_of_bind h
    exact (ih m s' hrest).trans (hf s a m hm)

/-- One epoch of `train` keeps the attached optimizer's identity. -/
theorem epochStep_keeps (rng : ℕ → ℕ → List ℕ) (Xv : Option Mat) (yv : Option (List ℕ))
    (lt : String) (le bs n nb : ℕ) (st : TState) (e : ℕ) (st' : TState)
    (h : epochStep rng Xv yv lt le bs n nb st e = .ok st') :
    st'.net.optimizer.map (fun o => (o.name, o.learning_rate)) =
      st.net.optimizer.map (fun o => (o.name, o.learning_rate)) := by
  unfold epochStep at h
  obtain ⟨st2, hfold, h⟩ := ok_of_bind h
  obtain ⟨tl, _, h⟩ := ok_of_bind h
  obtain ⟨ta, _, h⟩ := ok_of_bind h
  have h2 := foldlM_keeps _ (fun s a s' hh => batchStep_keeps Xv yv lt le bs n s a s' hh)
    _ _ _ hfold
  cases Xv with
  | none =>
    cases yv with
    | none => exact Except.noConfusion h
    | some yvv => exact Except.noConfusion h
  | some xv =>
    cases yv with
    | none => exact Except.noConfusion h
    | some yvv =>
      obtain ⟨pv, _, h⟩ := ok_of_bind h
      obtain ⟨vl, _, h⟩ := ok_of_bind h
      obtain ⟨va, _, h⟩ := ok_of_bind h
      cases h
      exact h2

/-- Claim C7: when no optimizer is attached, `train` behaves exactly as if
the default SGD optimizer with learning rate 0.01 had been attached first
(before any batch is processed), and a previously attached optimizer is
never replaced — after a successful run the final network still carries an
optimizer of the same name and learning rate. -/
theorem claim_C7_default_optimizer (rng : ℕ → ℕ → List ℕ) (net : NeuralNetwork)
    (X : Mat) (y : List ℕ) (Xv : Option Mat) (yv : Option (List ℕ)) (bs ne : ℕ)
    (lt : String) (le : ℕ) :
    (net.optimizer = none →
      train rng net X y Xv yv bs ne lt le =
        train rng { net with optimizer := some (mkOptimizer "sgd" 0.01 net.W net.B) }
          X y Xv yv bs ne lt le ∧
      (mkOptimizer "sgd" 0.01 net.W net.B).name = "sgd" ∧
      (mkOptimizer "sgd" 0.01 net.W net.B).learning_rate = 0.01) ∧
    (∀ o, net.optimizer = some o → ∀ hist net2,
      train rng net X y Xv yv bs ne lt le = .ok (hist, net2) →
      ∃ o2, net2.optimizer = some o2 ∧ o2.name = o.name ∧
        o2.learning_rate = o.learning_rate) := by
  constructor
  · intro h
    refine ⟨?_, rfl, rfl⟩
    have h1 : trainInit net =
        .ok { net with optimizer := some (mkOptimizer "sgd" 0.01 net.W net.B) } := by
      rw [trainInit, h]
      rfl
    have h2 : trainInit { net with optimizer := some (mkOptimizer "sgd" 0.01 net.W net.B) } =
        .ok { net with optimizer := some (mkOptimizer "sgd" 0.01 net.W net.B) } := rfl
    unfold train
    rw [h1, h2]
  · intro o ho hist net2 htr
    rw [train_eq] at htr
    rw [show trainInit net = Except.ok net by rw [trainInit, ho]; rfl] at htr
    rw [okBind] at htr
    by_cases hbs : bs = 0
    · simp only [if_pos hbs] at htr
      exact Except.noConfusion htr
    · simp only [if_neg hbs] at htr
      by_cases hne : ne = 0 ∨ (X.length + bs - 1) / bs = 0
      · simp only [if_pos hne] at htr
        exact Except.noConfusion htr
      · simp only [if_neg hne] at htr
        obtain ⟨stF, hfold, hpure⟩ := ok_of_bind htr
        have hnet2 : net2 = stF.net := by
          cases hpure
          rfl
        have h3 := foldlM_keeps _
          (fun s a s' hh => epochStep_keeps rng Xv yv lt le bs X.length
            ((X.length + bs - 1) / bs) s a s' hh) _ _ _ hfold
        rw [hnet2]
        rw [ho] at h3
        cases hopt2 : stF.net.optimizer with
        | none => rw [hopt2] at h3; exact Option.noConfusion h3
        | some o2 =>
          rw [hopt2] at h3
          refine ⟨o2, rfl, ?_, ?_⟩
          · exact congrArg Prod.fst (Option.some.injEq _ _ |>.mp h3)
          · exact congrArg Prod.snd (Option.some.injEq _ _ |>.mp h3)

/-- Witness for C7: the default-SGD part at a concrete optimizer-free
network. -/
theorem claim_C7_witness :
    train (fun _ n => List.range n)
      { layer_sizes := [1, 1], L := 1, activation_functions := ["identity"],
        W := [[[2]]], B := [[[0]]], weight_decay := 0, optimizer := none }
      [[1]] [0] (some [[1]]) (some [0]) 1 1 "mse" 100 =
      train (fun _ n => List.range n)
        { layer_sizes := [1, 1], L := 1, activation_functions := ["identity"],
          W := [[[2]]], B := [[[0]]], weight_decay := 0,
          optimizer := some (mkOptimizer "sgd" 0.01 [[[2]]] [[[0]]]) }
        [[1]] [0] (some [[1]]) (some [0]) 1 1 "mse" 100 ∧
    (mkOptimizer "sgd" 0.01 [[[2]]] [[[0]]]).name = "sgd" ∧
    (mkOptimizer "sgd" 0.01 [[[2]]] [[[0]]]).learning_rate = 0.01 :=
  (claim_C7_default_optimizer _ _ _ _ _ _ _ _ _ _).1 rfl


/-- `back_propagation` written as an explicit composition of its stages
(definitional restatement used to destructure successful runs). -/
theorem back_propagation_eq (net : NeuralNetwork) (X : Mat) (y : List ℕ) (H A : List Mat)
    (lt : String) :
    back_propagation net X y H A lt =
      if ¬(H.length = net.L + 1 ∧ A.length = net.L) then .error "AssertionError"
      else if ¬(X.length = y.length) then .error "AssertionError"
      else
        outputError net H A y lt >>= fun dA =>
        backDown net A H X.length dA (net.L - 1) >>= fun lower =>
        pure (if 0 < net.weight_decay then
                List.zipWith (fun dw w => matZip (fun a b => a + net.weight_decay * b) dw w)
                  (lower.map Prod.fst ++
                    [matDiv (dotTH dA (H.getD (H.length - 2) [])) X.length]) net.W
              else lower.map Prod.fst ++
                    [matDiv (dotTH dA (H.getD (H.length - 2) [])) X.length],
              lower.map Prod.snd ++ [matDiv (colSum dA) X.length]) := rfl

/-- `getD` through `List.map`, for an in-range index. -/
theorem getD_map_of_lt {α β : Type} (f : α → β) (l : List α) (k : ℕ) (d : α) (d' : β)
    (h : k < l.length) :
    (l.map f).getD k d' = f (l.getD k d) := by
  rw [List.getD_eq_getElem _ _ (by simpa using h), List.getD_eq_getElem _ _ h,
    List.getElem_map]

/-- The backward loop agrees, layer by layer, with the spec's error
recursion `dA_chain`: starting from the layer-`r` error, it produces for
every `k < r` the gradients `(dA_k^T·H[k]/N, colsum(dA_k)/N)`. -/
theorem backDown_spec (net : NeuralNetwork) (A H : List Mat) (y : List ℕ) (lt : String)
    (N : ℕ) :
    ∀ (r : ℕ) (dA : Mat) (l : List (Mat × Mat)),
      r ≤ net.L - 1 →
      dA_chain net H A y lt (net.L - 1 - r) = .ok dA →
      backDown net A H N dA r = .ok l →
      l.length = r ∧
      ∀ k, k < r →
        ∃ dAk, dA_chain net H A y lt (net.L - 1 - k) = .ok dAk ∧
          l.getD k ([], []) =
            (matDiv (dotTH dAk (H.getD k [])) N, matDiv (colSum dAk) N) := by
  intro r
  induction r with
  | zero =>
    intro dA l _ _ hBD
    have hl : [] = l := (Except.ok.injEq _ _).mp hBD
    constructor
    · rw [← hl]
      rfl
    · intro k hk
      exact absurd hk (Nat.not_lt_zero k)
  | succ r ih =>
    intro dA l hr hchain hBD
    simp only [backDown] at hBD
    obtain ⟨d, hd, hBD⟩ := ok_of_bind hBD
    obtain ⟨rest, hrest, hBD⟩ := ok_of_bind hBD
    have hl : l = rest ++
        [(matDiv (dotTH (applyDeriv (dot dA (net.W.getD (r + 1) [])) d) (H.getD r [])) N,
          matDiv (colSum (applyDeriv (dot dA (net.W.getD (r + 1) [])) d)) N)] :=
      ((Except.ok.injEq _ _).mp hBD).symm
    have hch_r : dA_chain net H A y lt (net.L - 1 - r) =
        .ok (applyDeriv (dot dA (net.W.getD (r + 1) [])) d) := by
      have hidx : net.L - 1 - r = (net.L - 1 - (r + 1)) + 1 := by omega
      rw [hidx]
      simp only [dA_chain]
      rw [hchain]
      simp only [okBind]
      have hk' : net.L - 1 - (net.L - 1 - (r + 1) + 1) = r := by omega
      rw [hk', hd]
      simp only [okBind]
      rfl
    have hrec := ih (applyDeriv (dot dA (net.W.getD (r + 1) [])) d) rest (by omega) hch_r hrest
    constructor
    · rw [hl]
      simp [hrec.1]
    · intro k hk
      rcases Nat.lt_succ_iff_lt_or_eq.mp hk with hk' | hk'
      · obtain ⟨dAk, hc, hg⟩ := hrec.2 k hk'
        refine ⟨dAk, hc, ?_⟩
        rw [hl, List.getD_append _ _ _ _ (by rw [hrec.1]; exact hk')]
        exact hg
      · subst hk'
        refine ⟨applyDeriv (dot dA (net.W.getD (k + 1) [])) d, hch_r, ?_⟩
        rw [hl, List.getD_append_right _ _ _ _ (le_of_eq hrec.1)]
        rw [hrec.1]
        simp

/-- Claim C2: for a successful `back_propagation` run (with no weight
decay applied), the returned gradients satisfy exactly the spec recursion:
`dW[L-1] = dA_L^T·H[L-1]/N`, `dB[L-1] = colsum(dA_L)/N`, and for every
lower layer `k`, with `dA_k` given by the chain
`dA_k = (dA_{k+1}·W[k+1]) ⊙ deriv(A[k], H[k+1], kind_k)`,
`dW[k] = dA_k^T·H[k]/N` and `dB[k] = colsum(dA_k)/N`. -/
theorem claim_C2_gradient_recursion (net : NeuralNetwork) (X : Mat) (y : List ℕ)
    (H A : List Mat) (lt : String) (dW dB : List Mat)
    (hwd : ¬ 0 < net.weight_decay)
    (hok : back_propagation net X y H A lt = .ok (dW, dB)) :
    (∃ dA, outputError net H A y lt = .ok dA ∧
       dW.getD (net.L - 1) [] = matDiv (dotTH dA (H.getD (net.L - 1) [])) X.length ∧
       dB.getD (net.L - 1) [] = matDiv (colSum dA) X.length) ∧
    (∀ k, k < net.L - 1 →
       ∃ dAk, dA_chain net H A y lt (net.L - 1 - k) = .ok dAk ∧
         dW.getD k [] = matDiv (dotTH dAk (H.getD k [])) X.length ∧
         dB.getD k [] = matDiv (colSum dAk) X.length) := by
  rw [back_propagation_eq] at hok
  by_cases h1 : H.length = net.L + 1 ∧ A.length = net.L
  · rw [if_neg (not_not_intro h1)] at hok
    by_cases h2 : X.length = y.length
    · rw [if_neg (not_not_intro h2)] at hok
      obtain ⟨dA0, hOE, hok⟩ := ok_of_bind hok
      obtain ⟨lower, hBD, hok⟩ := ok_of_bind hok
      rw [if_neg hwd] at hok
      have hpair := (Except.ok.injEq _ _).mp hok
      have hdW : lower.map Prod.fst ++
          [matDiv (dotTH dA0 (H.getD (H.length - 2) [])) X.length] = dW :=
        congrArg Prod.fst hpair
      have hdB : lower.map Prod.snd ++ [matDiv (colSum dA0) X.length] = dB :=
        congrArg Prod.snd hpair
      have hspec := backDown_spec net A H y lt X.length (net.L - 1) dA0 lower
        (le_refl _) (by rw [Nat.sub_self]; exact hOE) hBD
      have hlen2 : H.length - 2 = net.L - 1 := by omega
      have hmapl : (lower.map Prod.fst).length = net.L - 1 := by
        rw [List.length_map, hspec.1]
      have hmapl2 : (lower.map Prod.snd).length = net.L - 1 := by
        rw [List.length_map, hspec.1]
      constructor
      · refine ⟨dA0, hOE, ?_, ?_⟩
        · rw [← hdW, List.getD_append_right _ _ _ _ (le_of_eq hmapl), hmapl,
            Nat.sub_self, hlen2]
          rfl
        · rw [← hdB, List.getD_append_right _ _ _ _ (le_of_eq hmapl2), hmapl2,
            Nat.sub_self]
          rfl
      · intro k hk
        obtain ⟨dAk, hc, hg⟩ := hspec.2 k hk
        refine ⟨dAk, hc, ?_, ?_⟩
        · rw [← hdW, List.getD_append _ _ _ _ (by rw [hmapl]; exact hk),
            getD_map_of_lt Prod.fst lower k ([], []) [] (by rw [hspec.1]; exact hk), hg]
        · rw [← hdB, List.getD_append _ _ _ _ (by rw [hmapl2]; exact hk),
            getD_map_of_lt Prod.snd lower k ([], []) [] (by rw [hspec.1]; exact hk), hg]
    · rw [if_pos h2] at hok
      exact Except.noConfusion hok
  · rw [if_pos h1] at hok
    exact Except.noConfusion hok

set_option maxHeartbeats 1000000 in
/-- Concrete evaluation of `back_propagation` on a two-layer identity
network with all-zero parameters and mse loss. -/
theorem backProp_eval_concrete :
    back_propagation
      { layer_sizes := [1, 1, 1], L := 2, activation_functions := ["identity", "identity"],
        W := [[[0]], [[0]]], B := [[[0]], [[0]]], weight_decay := 0, optimizer := none }
      [[0]] [0] [[[0]], [[0]], [[0]]] [[[0]], [[0]]] "mse" =
      .ok ([[[0]], [[0]]], [[[0]], [[-1]]]) := by
  rw [back_propagation_eq]
  norm_num [outputError, backDown, _loss_derivative, _activate_derivative, one_hot,
    applyDeriv, dot, dotTH, colSum, matDiv, matZip, mapMat, mkMat, entry, rowsOf, colsOf,
    pyLower_mse, pyLower_ce, pyLower_identity, npEps, List.range_succ,
    Finset.sum_range_succ, Finset.sum_range_zero,
    show ("mse" = "cross_entropy") = False from eq_false (by decide),
    show ("identity" = "softmax") = False from eq_false (by decide),
    show ("identity" = "sigmoid") = False from eq_false (by decide),
    show ("identity" = "relu") = False from eq_false (by decide),
    show ("identity" = "tanh") = False from eq_false (by decide)]

/-- Witness for C2 on the two-layer identity network. -/
theorem claim_C2_witness :
    (∃ dA, outputError
        { layer_sizes := [1, 1, 1], L := 2, activation_functions := ["identity", "identity"],
          W := [[[0]], [[0]]], B := [[[0]], [[0]]], weight_decay := 0, optimizer := none }
        [[[0]], [[0]], [[0]]] [[[0]], [[0]]] [0] "mse" = .ok dA ∧
      ([[[(0 : ℝ)]], [[0]]] : List Mat).getD (2 - 1) [] =
        matDiv (dotTH dA ([[[(0 : ℝ)]], [[0]], [[0]]].getD (2 - 1) [])) [[(0 : ℝ)]].length ∧
      ([[[(0 : ℝ)]], [[-1]]] : List Mat).getD (2 - 1) [] =
        matDiv (colSum dA) [[(0 : ℝ)]].length) ∧
    (∀ k, k < 2 - 1 →
      ∃ dAk, dA_chain
          { layer_sizes := [1, 1, 1], L := 2, activation_functions := ["identity", "identity"],
            W := [[[0]], [[0]]], B := [[[0]], [[0]]], weight_decay := 0, optimizer := none }
          [[[0]], [[0]], [[0]]] [[[0]], [[0]]] [0] "mse" (2 - 1 - k) = .ok dAk ∧
        ([[[(0 : ℝ)]], [[0]]] : List Mat).getD k [] =
          matDiv (dotTH dAk ([[[(0 : ℝ)]], [[0]], [[0]]].getD k [])) [[(0 : ℝ)]].length ∧
        ([[[(0 : ℝ)]], [[-1]]] : List Mat).getD k [] =
          matDiv (colSum dAk) [[(0 : ℝ)]].length) :=
  claim_C2_gradient_recursion
    { layer_sizes := [1, 1, 1], L := 2, activation_functions := ["identity", "identity"],
      W := [[[0]], [[0]]], B := [[[0]], [[0]]], weight_decay := 0, optimizer := none }
    [[0]] [0] [[[0]], [[0]], [[0]]] [[[0]], [[0]]] "mse" [[[0]], [[0]]] [[[0]], [[-1]]]
    (by norm_num) backProp_eval_concrete

end NN
